import Mathlib

/-!
Verification development for the ArchWize diagram classification and repair
engine (`src/archwize/frontend/pages/index.js`).

The JavaScript code is shallowly embedded over `List Char` / `String`:

* `repair` models the generic repair pipeline of `retryRender`
  (lines 244-279): `trim`, header normalization, then the nine ordered
  global regex substitutions, with JavaScript `String.replace` semantics
  (leftmost match, scan resumes after each replacement, replacements are
  not rescanned).
* `isCheckoutDiagram` / `isBuyOrderDiagram` model the keyword tests of
  lines 170-179; `classify` models the branch priority of `retryRender`.
* `checkoutTemplate`, `buyOrderTemplate` and `templateCode` transcribe the
  template literals of lines 183-214, 223-237 and 291-349 verbatim.
* `SessionState`, `retryRender`, `useTemplate` model the React state the
  component reads and writes (`rawDiagram`, `error`, `diagram`,
  `orientation`) and the render calls each handler performs.

Character classes (`\s`, `\w`, `.`) are modeled over the ASCII range, which
covers every string the component manipulates.
-/

set_option maxRecDepth 8000

namespace ArchWize

/-- The `orientation` state variable: `"TD"` (default) or `"LR"`,
the only two values the UI buttons can set (lines 393-405). -/
inductive Orientation
  | TD
  | LR
deriving DecidableEq, Repr

/-- The orientation token interpolated into `graph ${orientation}`. -/
def orientStr : Orientation → String
  | .TD => "TD"
  | .LR => "LR"

/-- Orientation token as a character list. -/
def tok (o : Orientation) : List Char := (orientStr o).data

/-- JavaScript `\s` (and `String.trim` whitespace), ASCII range. -/
def isSpaceJS (c : Char) : Bool :=
  c = ' ' || c = '\t' || c = '\n' || c = '\r' || c = '\x0b' || c = '\x0c'

/-- JavaScript `\w`: `[A-Za-z0-9_]`. -/
def isWordChar (c : Char) : Bool := c.isAlphanum || c = '_'

/-- JavaScript `[A-Z]`. -/
def isUpperAZ (c : Char) : Bool := 'A' ≤ c && c ≤ 'Z'

/-- Greedy span: longest prefix satisfying `p`, and the remainder. -/
def takeW (p : Char → Bool) : List Char → List Char × List Char
  | [] => ([], [])
  | c :: cs =>
    if p c then
      let r := takeW p cs
      (c :: r.1, r.2)
    else ([], c :: cs)

/-- JavaScript `String.trim()` (left part). -/
def trimLeftJS (l : List Char) : List Char := l.dropWhile isSpaceJS

/-- JavaScript `String.trim()`: strip `\s` from both ends. -/
def trimJS (l : List Char) : List Char :=
  ((trimLeftJS l).reverse.dropWhile isSpaceJS).reverse

/-- `needle.isPrefixOf hay`, executable. -/
def startsWithL : List Char → List Char → Bool
  | [], _ => true
  | _ :: _, [] => false
  | a :: ns, b :: hs => a = b && startsWithL ns hs

/-- JavaScript `hay.includes(needle)`. -/
def containsL (needle : List Char) : List Char → Bool
  | [] => startsWithL needle []
  | c :: cs => startsWithL needle (c :: cs) || containsL needle cs

/-- JavaScript `raw.includes(sub)` on `String`. -/
def includesS (hay needle : String) : Bool := containsL needle.data hay.data

/-- One pass of a JavaScript global `replace`: `m` attempts a match at the
current position and returns the replacement text together with the number
of matched characters beyond the first; the scan resumes after the match
and never rescans replacement text.  Fuel is the input length, which is an
invariant upper bound on the remaining characters. -/
def substF (m : List Char → Option (List Char × Nat)) :
    Nat → List Char → List Char
  | 0, l => l
  | _ + 1, [] => []
  | fuel + 1, c :: cs =>
    match m (c :: cs) with
    | some (repl, k) => repl ++ substF m fuel (cs.drop k)
    | none => c :: substF m fuel cs

/-- JavaScript `String.replace(/pattern/g, repl)` driven by matcher `m`. -/
def subst (m : List Char → Option (List Char × Nat)) (l : List Char) :
    List Char :=
  substF m l.length l

/-- Match `\w+\["[^"]*"\]` at the current position: a node declaration with
a quoted label.  Returns the matched characters and the remainder. -/
def matchNode (l : List Char) : Option (List Char × List Char) :=
  let s := takeW isWordChar l
  if s.1.isEmpty then none
  else
    match s.2 with
    | '[' :: '"' :: r2 =>
      let b := takeW (fun c => !(c = '"')) r2
      match b.2 with
      | '"' :: ']' :: r4 =>
        some (s.1 ++ '[' :: '"' :: (b.1 ++ '"' :: ']' :: []), r4)
      | _ => none
    | _ => none

/-- Rule 1 matcher: `/(\w+\["[^"]*"\])\s+(\w+\["[^"]*"\])/g → '$1 --> $2'`. -/
def mArrowInsert (l : List Char) : Option (List Char × Nat) :=
  match matchNode l with
  | none => none
  | some (n1, r) =>
    let s := takeW isSpaceJS r
    if s.1.isEmpty then none
    else
      match matchNode s.2 with
      | none => none
      | some (n2, _) =>
        some (n1 ++ ' ' :: '-' :: '-' :: '>' :: ' ' :: n2,
          n1.length + s.1.length + n2.length - 1)

/-- Split off the shortest suffix containing no `'\n'`: returns the prefix
up to and including the last newline, and what follows it. -/
def lastNL : List Char → Option (List Char × List Char)
  | [] => none
  | c :: cs =>
    match lastNL cs with
    | some (a, b) => some (c :: a, b)
    | none => if c = '\n' then some ([c], cs) else none

/-- Rule 2 matcher: `/(\w+\["[^"]*"\])(\s*\n)/g → '$1;$2'`.  Backtracking
the greedy `\s*` makes `\n` match the last newline of the whitespace run. -/
def mSemiEOL (l : List Char) : Option (List Char × Nat) :=
  match matchNode l with
  | none => none
  | some (n1, r) =>
    let s := takeW isSpaceJS r
    match lastNL s.1 with
    | none => none
    | some (g2, _) => some (n1 ++ ';' :: g2, n1.length + g2.length - 1)

/-- Rule 3 matcher: pattern `-->\|{2}`, global, replacement `-->|`. -/
def mDoublePipe : List Char → Option (List Char × Nat)
  | '-' :: '-' :: '>' :: '|' :: '|' :: _ => some (['-', '-', '>', '|'], 4)
  | _ => none

/-- Rule 4 matcher: `/(ConfirmPayPal)\s+(Review)/g → '$1 --> $2'`. -/
def mConfirmPayPal (l : List Char) : Option (List Char × Nat) :=
  if startsWithL "ConfirmPayPal".data l then
    let s := takeW isSpaceJS (l.drop 13)
    if s.1.isEmpty then none
    else if startsWithL "Review".data s.2 then
      some ("ConfirmPayPal --> Review".data, 13 + s.1.length + 6 - 1)
    else none
  else none

/-- Rule 5 matcher: `/([^\s])-->/g → '$1 -->'`. -/
def mSpaceBeforeArrow : List Char → Option (List Char × Nat)
  | [] => none
  | c :: rest =>
    if isSpaceJS c then none
    else
      match rest with
      | '-' :: '-' :: '>' :: _ => some ([c, ' ', '-', '-', '>'], 3)
      | _ => none

/-- Rule 6 matcher: pattern `-->([^\s|])`, global, replacement `--> $1`. -/
def mSpaceAfterArrow : List Char → Option (List Char × Nat)
  | '-' :: '-' :: '>' :: c :: _ =>
    if isSpaceJS c || c = '|' then none
    else some (['-', '-', '>', ' ', c], 3)
  | _ => none

/-- Rule 7 matcher: `/\|([^|]+)\|/g → '|$1| '`. -/
def mPipeSpacing : List Char → Option (List Char × Nat)
  | '|' :: cs =>
    let b := takeW (fun c => !(c = '|')) cs
    if b.1.isEmpty then none
    else
      match b.2 with
      | '|' :: _ => some ('|' :: b.1 ++ '|' :: ' ' :: [], b.1.length + 1)
      | _ => none
  | _ => none

/-- Rule 8 matcher: `/(\w+\["[^"]*"\])(\s*$)/gm → '$1;$2'`.  With the `m`
flag, `$` matches end of input (preferred by the greedy `\s*`) or the
position just before a newline, so `$2` is the whitespace run when the run
reaches end of input, else the run up to (excluding) its last newline. -/
def mSemiEOS (l : List Char) : Option (List Char × Nat) :=
  match matchNode l with
  | none => none
  | some (n1, r) =>
    let s := takeW isSpaceJS r
    match s.2 with
    | [] => some (n1 ++ ';' :: s.1, n1.length + s.1.length - 1)
    | _ =>
      match lastNL s.1 with
      | none => none
      | some (g2, _) =>
        some (n1 ++ ';' :: g2.dropLast, n1.length + g2.length - 2)

/-- Rule 9 matcher: `/(-->.*?)(\n|$)/g → '$1;$2'` (no `m` flag).  The lazy
`.*?` stops at the first newline or at end of input; `.` matches neither
`'\n'` nor `'\r'`, so a `'\r'` before any newline blocks the match. -/
def mSemiAfterArrow : List Char → Option (List Char × Nat)
  | '-' :: '-' :: '>' :: cs =>
    let s := takeW (fun c => !(c = '\n') && !(c = '\r')) cs
    match s.2 with
    | [] => some ('-' :: '-' :: '>' :: s.1 ++ [';'], 2 + s.1.length)
    | '\n' :: _ =>
      some ('-' :: '-' :: '>' :: s.1 ++ [';', '\n'], 3 + s.1.length)
    | _ => none
  | _ => none

/-- The nine ordered substitutions of `retryRender` (lines 261-279). -/
def applyRules (l : List Char) : List Char :=
  subst mSemiAfterArrow
    (subst mSemiEOS
      (subst mPipeSpacing
        (subst mSpaceAfterArrow
          (subst mSpaceBeforeArrow
            (subst mConfirmPayPal
              (subst mDoublePipe
                (subst mSemiEOL
                  (subst mArrowInsert l))))))))

/-- `"graph "` as a character list. -/
def gHdr : List Char := ['g', 'r', 'a', 'p', 'h', ' ']

/-- `fixedDiagram.replace(/^graph [A-Z]+/, 'graph ${orientation}')`. -/
def replaceHeadUpper (t : List Char) (o : Orientation) : List Char :=
  if startsWithL gHdr t then
    let s := takeW isUpperAZ (t.drop 6)
    if s.1.isEmpty then t else gHdr ++ tok o ++ s.2
  else t

/-- Does the list start with `';'`?  (The literal `;` after `[A-Z]+` in
the header-semicolon regex.) -/
def startsSemi : List Char → Bool
  | [] => false
  | c :: _ => c = ';'

/-- `fixedDiagram.match(/^graph [A-Z]+;/)` as a Boolean. -/
def matchHeaderSemi (t : List Char) : Bool :=
  startsWithL gHdr t &&
    (let s := takeW isUpperAZ (t.drop 6)
     !s.1.isEmpty && startsSemi s.2)

/-- `fixedDiagram.replace(/^(graph [A-Z]+)(\s|$)/, '$1;\n')`: the matched
`$2` (one whitespace character, or nothing at end of input) is dropped. -/
def fixHeaderSemi (t : List Char) : List Char :=
  if startsWithL gHdr t then
    let s := takeW isUpperAZ (t.drop 6)
    if s.1.isEmpty then t
    else if s.2.isEmpty then gHdr ++ s.1 ++ [';', '\n']
    else if isSpaceJS (s.2.headD ' ') then
      gHdr ++ s.1 ++ ';' :: '\n' :: s.2.tail
    else t
  else t

/-- The orientation branch of header normalization (lines 248-253):
prepend a header, or rewrite the orientation token of an existing one. -/
def headerOrient (t : List Char) (o : Orientation) : List Char :=
  if startsWithL gHdr t then
    if startsWithL (gHdr ++ tok o) t then t else replaceHeadUpper t o
  else gHdr ++ tok o ++ ';' :: '\n' :: t

/-- Header normalization (lines 245-258): trim, orientation fix,
semicolon fix. -/
def headerNormalize (l : List Char) (o : Orientation) : List Char :=
  let u := headerOrient (trimJS l) o
  if matchHeaderSemi u then u else fixHeaderSemi u

/-- The generic repair pipeline of `retryRender` on character lists. -/
def repairL (l : List Char) (o : Orientation) : List Char :=
  applyRules (headerNormalize l o)

/-- The generic repair pipeline of `retryRender` (lines 244-279):
header normalization followed by the nine ordered substitutions. -/
def repair (s : String) (o : Orientation) : String :=
  String.mk (repairL s.data o)

/-- `isCheckoutDiagram` (lines 170-174). -/
def isCheckoutDiagram (raw : String) : Bool :=
  includesS raw "Shopping Cart" || includesS raw "Checkout" ||
    includesS raw "Payment" || includesS raw "Order"

/-- `isBuyOrderDiagram` (lines 176-179). -/
def isBuyOrderDiagram (raw : String) : Bool :=
  includesS raw "Buy Order" ||
    (includesS raw "Trade" && includesS raw "Kafka") ||
    (includesS raw "Client" && includesS raw "Service")

/-- Content categories distinguished by `retryRender`'s branch structure. -/
inductive DiagramCategory
  | checkout
  | buyorder
  | unclassified
deriving DecidableEq, Repr

/-- The classification implicit in `retryRender`'s branch order: the
buy-order test is taken first (line 182), then the checkout test. -/
def classify (raw : String) : DiagramCategory :=
  if isBuyOrderDiagram raw then .buyorder
  else if isCheckoutDiagram raw then .checkout
  else .unclassified

/-- The `buyOrderTemplate` literal of the retry path (lines 183-214). -/
def buyOrderTemplate (o : Orientation) : String :=
  "graph " ++ orientStr o ++ ";
  Start[\"Receive Buy Order\"] --> ValidateToken[\"Validate Authentication Token\"];
  ValidateToken --> CleanRequest[\"Clean and Standardize Request\"];
  CleanRequest --> SendRequest[\"Send Request to Trade Service\"];
  SendRequest --> TradeService[\"Trade Service\"];
  TradeService --> AuthorizeParse[\"Authorization & Parsing\"];
  TradeService --> NormalizeData[\"Normalize Trade Data\"];
  TradeService --> ValidateTrade[\"Validate Trade\"];
  TradeService --> EnrichData[\"Enrich Trade Data\"];
  TradeService --> BusinessEvent[\"Business Event Generation\"];
  BusinessEvent --> KafkaTopics[\"Emit Kafka Topics\"];
  KafkaTopics --> NewTrade[\"New Trade Topic\"];
  KafkaTopics --> AmendedTrade[\"Amended Trade Topic\"];
  KafkaTopics --> CanceledTrade[\"Canceled Trade Topic\"];
  NewTrade --> EventConsumers[\"Event Consumers\"];
  AmendedTrade --> EventConsumers;
  CanceledTrade --> EventConsumers;
  EventConsumers --> APIGateway[\"API Gateway\"];
  APIGateway --> NSCC[\"NSCC\"];
  APIGateway --> OCC[\"OCC\"];
  APIGateway --> DTC[\"DTC\"];
  APIGateway --> Fed[\"Fed\"];
  APIGateway --> ClientAPI[\"Client API\"];
  APIGateway --> Finra[\"Finra\"];
  APIGateway --> OtherConsumers[\"Other Consumers\"];
  NSCC --> End[\"End Process\"];
  OCC --> End;
  DTC --> End;
  Fed --> End;
  ClientAPI --> End;
  Finra --> End;
  OtherConsumers --> End;"

/-- The `checkoutTemplate` literal of the retry path (lines 223-237). -/
def checkoutTemplate (o : Orientation) : String :=
  "graph " ++ orientStr o ++ ";
  Start[\"User Begins Checkout\"] --> ViewCart[\"View Shopping Cart\"];
  ViewCart --> EnterAddress[\"Enter Shipping Address\"];
  EnterAddress --> ChoosePayment[\"Choose Payment Method\"];
  ChoosePayment -->|Credit Card| ProcessCreditCard[\"Process Credit Card Payment\"];
  ProcessCreditCard --> ConfirmCreditCard[\"Confirm Credit Card Payment\"];
  ChoosePayment -->|PayPal| ProcessPayPal[\"Process PayPal Payment\"];
  ProcessPayPal --> ConfirmPayPal[\"Confirm PayPal Payment\"];
  ConfirmCreditCard --> ReviewSummary[\"Review Order Summary\"];
  ConfirmPayPal --> ReviewSummary;
  ReviewSummary -->|Confirm| DispatchOrder[\"Dispatch Order\"];
  DispatchOrder --> Delivered[\"Order Marked as Delivered\"];
  ReviewSummary -->|Cancel| CancelCheckout[\"Cancel Checkout\"];
  CancelCheckout --> End[\"Checkout Process Ends\"];
  Delivered --> End;"

/-- The `templateCode` literal of `useTemplate` for `"checkout"`
(lines 292-306), transcribed from its own occurrence in the source. -/
def templateCodeCheckout (o : Orientation) : String :=
  "graph " ++ orientStr o ++ ";
  Start[\"User Begins Checkout\"] --> ViewCart[\"View Shopping Cart\"];
  ViewCart --> EnterAddress[\"Enter Shipping Address\"];
  EnterAddress --> ChoosePayment[\"Choose Payment Method\"];
  ChoosePayment -->|Credit Card| ProcessCreditCard[\"Process Credit Card Payment\"];
  ProcessCreditCard --> ConfirmCreditCard[\"Confirm Credit Card Payment\"];
  ChoosePayment -->|PayPal| ProcessPayPal[\"Process PayPal Payment\"];
  ProcessPayPal --> ConfirmPayPal[\"Confirm PayPal Payment\"];
  ConfirmCreditCard --> ReviewSummary[\"Review Order Summary\"];
  ConfirmPayPal --> ReviewSummary;
  ReviewSummary -->|Confirm| DispatchOrder[\"Dispatch Order\"];
  DispatchOrder --> Delivered[\"Order Marked as Delivered\"];
  ReviewSummary -->|Cancel| CancelCheckout[\"Cancel Checkout\"];
  CancelCheckout --> End[\"Checkout Process Ends\"];
  Delivered --> End;"

/-- The `templateCode` literal of `useTemplate` for `"buyorder"`
(lines 308-339), transcribed from its own occurrence in the source. -/
def templateCodeBuyOrder (o : Orientation) : String :=
  "graph " ++ orientStr o ++ ";
  Start[\"Receive Buy Order\"] --> ValidateToken[\"Validate Authentication Token\"];
  ValidateToken --> CleanRequest[\"Clean and Standardize Request\"];
  CleanRequest --> SendRequest[\"Send Request to Trade Service\"];
  SendRequest --> TradeService[\"Trade Service\"];
  TradeService --> AuthorizeParse[\"Authorization & Parsing\"];
  TradeService --> NormalizeData[\"Normalize Trade Data\"];
  TradeService --> ValidateTrade[\"Validate Trade\"];
  TradeService --> EnrichData[\"Enrich Trade Data\"];
  TradeService --> BusinessEvent[\"Business Event Generation\"];
  BusinessEvent --> KafkaTopics[\"Emit Kafka Topics\"];
  KafkaTopics --> NewTrade[\"New Trade Topic\"];
  KafkaTopics --> AmendedTrade[\"Amended Trade Topic\"];
  KafkaTopics --> CanceledTrade[\"Canceled Trade Topic\"];
  NewTrade --> EventConsumers[\"Event Consumers\"];
  AmendedTrade --> EventConsumers;
  CanceledTrade --> EventConsumers;
  EventConsumers --> APIGateway[\"API Gateway\"];
  APIGateway --> NSCC[\"NSCC\"];
  APIGateway --> OCC[\"OCC\"];
  APIGateway --> DTC[\"DTC\"];
  APIGateway --> Fed[\"Fed\"];
  APIGateway --> ClientAPI[\"Client API\"];
  APIGateway --> Finra[\"Finra\"];
  APIGateway --> OtherConsumers[\"Other Consumers\"];
  NSCC --> End[\"End Process\"];
  OCC --> End;
  DTC --> End;
  Fed --> End;
  ClientAPI --> End;
  Finra --> End;
  OtherConsumers --> End;"

/-- The `templateCode` literal of `useTemplate` for `"registration"`
(lines 341-348). -/
def templateCodeRegistration (o : Orientation) : String :=
  "graph " ++ orientStr o ++ ";
  Start[\"User Begins Registration\"] --> Register[\"Register User\"];
  Register --> EnterDetails[\"Enter User Details\"];
  EnterDetails --> Validate[\"Validate Input\"];
  Validate -->|Valid| Success[\"Account Created\"];
  Validate -->|Invalid| Retry[\"Retry Registration\"];
  Retry --> EnterDetails;
  Success --> End[\"Registration Complete\"];"

/-- `templateCode` as computed by `useTemplate` (lines 289-349): the empty
string for any type other than the three known ones. -/
def templateCode (ty : String) (o : Orientation) : String :=
  if ty = "checkout" then templateCodeCheckout o
  else if ty = "buyorder" then templateCodeBuyOrder o
  else if ty = "registration" then templateCodeRegistration o
  else ""

/-- The component state read and written by the handlers: the stored raw
diagram source, the error message, the last generated source, the prompt
text and the selected orientation. -/
structure SessionState where
  input : String
  diagram : String
  rawDiagram : String
  error : String
  orientation : Orientation
deriving DecidableEq, Repr

/-- What `retryRender` sends to the renderer, tagged by the branch that
produced it: nothing (guard at line 167), a hand-authored template
(lines 182-242), or the output of the generic repair pipeline (line 284). -/
inductive RetryOutcome
  | noop
  | template (code : String)
  | repaired (code : String)
deriving DecidableEq, Repr

/-- The branch structure of `retryRender` (lines 166-285): the empty-source
guard, the buy-order template branch, the checkout template branch (taken
when an error is displayed or the source contains the literal
`ConfirmPayPal ReviewOrder`), else the generic repair pipeline. -/
def retryRenderSource (st : SessionState) : RetryOutcome :=
  if st.rawDiagram = "" then .noop
  else if isBuyOrderDiagram st.rawDiagram then
    .template (buyOrderTemplate st.orientation)
  else if isCheckoutDiagram st.rawDiagram &&
      (!(st.error = "") ||
        includesS st.rawDiagram "ConfirmPayPal ReviewOrder") then
    .template (checkoutTemplate st.orientation)
  else .repaired (repair st.rawDiagram st.orientation)

/-- The state writes performed by `renderDiagram` (lines 51-130): on
success it clears the error, on failure it stores the syntax error
message.  It never touches `rawDiagram` or `diagram`. -/
def applyRender (st : SessionState) (ok : Bool) (errMsg : String) :
    SessionState :=
  if ok then { st with error := "" } else { st with error := errMsg }

/-- `retryRender` as a state transformer: the source selected by
`retryRenderSource` is handed to the renderer (whose success is modeled by
the oracle `ok`), and only the renderer's own state writes occur.
`retryRender` itself stores nothing. -/
def retryRender (st : SessionState) (ok : String → Bool)
    (errMsg : String) : SessionState × RetryOutcome :=
  match retryRenderSource st with
  | .noop => (st, .noop)
  | .template c => (applyRender st (ok c) errMsg, .template c)
  | .repaired c => (applyRender st (ok c) errMsg, .repaired c)

/-- `useTemplate` (lines 288-361): build `templateCode` for the requested
type; if it is empty (unknown type) do nothing, otherwise store it as the
new raw diagram, render it, and clear the error. -/
def useTemplate (ty : String) (st : SessionState) :
    SessionState × Option String :=
  let code := templateCode ty st.orientation
  if code = "" then (st, none)
  else ({ st with rawDiagram := code, error := "" }, some code)

/-- Classification as performed during a retry attempt: a pure read of the
stored `rawDiagram`, recomputed per attempt, depending on no other state. -/
def classifyState (st : SessionState) : DiagramCategory :=
  classify st.rawDiagram

/-- A bare header: the whole string is `graph ` followed by a nonempty run
of capitals and nothing else (so `replace(/^(graph [A-Z]+)(\s|$)/, '$1;\n')`
matches with `$2` empty and appends a trailing newline). -/
def isBareGraphHeader (t : List Char) : Bool :=
  startsWithL gHdr t &&
    (let s := takeW isUpperAZ (t.drop 6)
     !s.1.isEmpty && s.2.isEmpty)

/-- The header that the prepend branch of `headerOrient` installs. -/
def headerFor (o : Orientation) : List Char :=
  gHdr ++ tok o ++ ';' :: '\n' :: []

/-- The first character, if any, is not JavaScript whitespace. -/
def noLead (v : List Char) : Prop :=
  ∀ c, v.head? = some c → isSpaceJS c = false

/-- The last character, if any, is not JavaScript whitespace. -/
def noTrail (v : List Char) : Prop :=
  ∀ c, v.getLast? = some c → isSpaceJS c = false

/-! ## Scanning lemmas for the header analysis -/

/-- A list starts with itself appended with anything. -/
theorem startsWithL_self_append (n x : List Char) :
    startsWithL n (n ++ x) = true := by
  induction n with
  | nil => rfl
  | cons a ns ih => simp [startsWithL, ih]

/-- A successful prefix test decomposes the haystack. -/
theorem startsWithL_iff_ex {n h : List Char} (hs : startsWithL n h = true) :
    ∃ r, h = n ++ r := by
  induction n generalizing h with
  | nil => exact ⟨h, rfl⟩
  | cons a ns ih =>
    cases h with
    | nil => simp [startsWithL] at hs
    | cons b bs =>
      simp only [startsWithL, Bool.and_eq_true] at hs
      obtain ⟨r, hr⟩ := ih hs.2
      have hab : a = b := by simpa using hs.1
      exact ⟨r, by rw [hab, hr]; rfl⟩

/-- The two components of a span reassemble the input. -/
theorem takeW_decomp (p : Char → Bool) (l : List Char) :
    (takeW p l).1 ++ (takeW p l).2 = l := by
  induction l with
  | nil => rfl
  | cons c cs ih =>
    by_cases h : p c = true
    · simp [takeW, h, ih]
    · simp [takeW, h]

/-- Every character of the span satisfies the predicate. -/
theorem takeW_fst_all (p : Char → Bool) (l : List Char) :
    ∀ a ∈ (takeW p l).1, p a = true := by
  induction l with
  | nil => intro a ha; simp [takeW] at ha
  | cons c cs ih =>
    by_cases h : p c = true
    · intro a ha
      simp only [takeW, h, if_true] at ha
      rcases List.mem_cons.mp ha with rfl | ha2
      · exact h
      · exact ih a ha2
    · intro a ha
      simp [takeW, h] at ha

/-- The character right after a span fails the predicate. -/
theorem takeW_snd_head (p : Char → Bool) (l : List Char) {c : Char}
    {cs : List Char} (h : (takeW p l).2 = c :: cs) : p c = false := by
  induction l with
  | nil => simp [takeW] at h
  | cons a l2 ih =>
    by_cases hp : p a = true
    · simp only [takeW, hp, if_true] at h
      exact ih h
    · simp only [takeW, hp, if_false] at h
      injection h with h1 _
      subst h1
      cases hb : p a with
      | false => rfl
      | true => exact absurd hb hp

/-- A span over an all-satisfying block continues past it. -/
theorem takeW_append_all (p : Char → Bool) (x y : List Char)
    (hx : ∀ a ∈ x, p a = true) :
    takeW p (x ++ y) = (x ++ (takeW p y).1, (takeW p y).2) := by
  induction x with
  | nil => simp
  | cons a xs ih =>
    have ha : p a = true := hx a (List.mem_cons_self a xs)
    have ih2 := ih fun b hb => hx b (List.mem_cons_of_mem a hb)
    simp [takeW, ha, ih2]

/-- A span stops immediately at a failing character. -/
theorem takeW_cons_neg {p : Char → Bool} {c : Char} {cs : List Char}
    (h : p c = false) : takeW p (c :: cs) = ([], c :: cs) := by
  simp [takeW, h]

/-- The head surviving a `dropWhile` fails the predicate. -/
theorem dropWhile_head_not (p : Char → Bool) (l : List Char) {c : Char}
    {cs : List Char} (h : l.dropWhile p = c :: cs) : p c = false := by
  induction l with
  | nil => simp at h
  | cons a l2 ih =>
    rw [List.dropWhile_cons] at h
    split at h
    · exact ih h
    · next hpa =>
      injection h with h1 _
      subst h1
      cases hb : p a with
      | false => rfl
      | true => exact absurd hb hpa

/-- A trimmed string has no leading whitespace. -/
theorem trim_noLead (l : List Char) : noLead (trimJS l) := by
  intro c hc
  unfold trimJS trimLeftJS at hc
  have hpre : (List.dropWhile isSpaceJS
        (List.dropWhile isSpaceJS l).reverse).reverse
      <+: List.dropWhile isSpaceJS l := by
    conv_rhs => rw [← List.reverse_reverse (List.dropWhile isSpaceJS l)]
    exact List.reverse_prefix.mpr (List.dropWhile_suffix _)
  obtain ⟨u, hu⟩ := hpre
  have hne : (List.dropWhile isSpaceJS
      (List.dropWhile isSpaceJS l).reverse).reverse ≠ [] := by
    intro h0
    rw [h0] at hc
    exact Option.noConfusion hc
  have hX : (List.dropWhile isSpaceJS l).head? = some c := by
    rw [← hu, List.head?_append_of_ne_nil _ hne, hc]
  cases hXv : List.dropWhile isSpaceJS l with
  | nil => rw [hXv] at hX; exact Option.noConfusion hX
  | cons d ds =>
    rw [hXv] at hX
    injection hX with hdc
    subst hdc
    exact dropWhile_head_not _ _ hXv

/-- A trimmed string has no trailing whitespace. -/
theorem trim_noTrail (l : List Char) : noTrail (trimJS l) := by
  intro c hc
  unfold trimJS trimLeftJS at hc
  rw [List.getLast?_reverse] at hc
  cases hXv : List.dropWhile isSpaceJS
      (List.dropWhile isSpaceJS l).reverse with
  | nil => rw [hXv] at hc; exact Option.noConfusion hc
  | cons d ds =>
    rw [hXv] at hc
    injection hc with hdc
    subst hdc
    exact dropWhile_head_not _ _ hXv

/-- Trimming fixes a string with no whitespace at either end. -/
theorem trim_fix {v : List Char} (h1 : noLead v) (h2 : noTrail v) :
    trimJS v = v := by
  unfold trimJS trimLeftJS
  have hL : List.dropWhile isSpaceJS v = v := by
    cases hv : v with
    | nil => rfl
    | cons c cs =>
      exact List.dropWhile_cons_of_neg (by simp [h1 c (by rw [hv]; rfl)])
  rw [hL]
  have hR : List.dropWhile isSpaceJS v.reverse = v.reverse := by
    cases hv : v.reverse with
    | nil => rfl
    | cons c cs =>
      have hlast : v.getLast? = some c := by
        rw [← List.head?_reverse, hv]
        rfl
      exact List.dropWhile_cons_of_neg (by simp [h2 c hlast])
  rw [hR, List.reverse_reverse]

/-- Both orientation tokens consist of capitals. -/
theorem tok_upper (o : Orientation) : ∀ a ∈ tok o, isUpperAZ a = true := by
  cases o <;> decide

/-- Both orientation tokens are nonempty. -/
theorem tok_ne_nil (o : Orientation) : tok o ≠ [] := by
  cases o <;> decide

/-- An orientation token is not the empty list. -/
theorem tok_isEmpty (o : Orientation) : (tok o).isEmpty = false := by
  cases o <;> rfl

/-- An orientation token followed by anything is nonempty. -/
theorem isEmpty_tok_append (o : Orientation) (S : List Char) :
    (tok o ++ S).isEmpty = false := by
  cases hEv : (tok o ++ S).isEmpty with
  | false => rfl
  | true =>
    exact absurd (List.isEmpty_iff.mp hEv)
      (fun h0 => tok_ne_nil o (List.append_eq_nil.mp h0).1)

/-- `headerOrient` keeps a source that already carries the right token. -/
theorem headerOrient_keep {t : List Char} {o : Orientation}
    (hg : startsWithL gHdr t = true)
    (hT : startsWithL (gHdr ++ tok o) t = true) : headerOrient t o = t := by
  simp [headerOrient, hg, hT]

/-- `headerOrient` rewrites the token of a wrong-orientation header. -/
theorem headerOrient_replace {t : List Char} {o : Orientation}
    (hg : startsWithL gHdr t = true)
    (hT : startsWithL (gHdr ++ tok o) t = false) :
    headerOrient t o = replaceHeadUpper t o := by
  simp [headerOrient, hg, hT]

/-- `headerOrient` prepends a fresh header to a headerless source. -/
theorem headerOrient_prepend {t : List Char} {o : Orientation}
    (hg : startsWithL gHdr t = false) :
    headerOrient t o = gHdr ++ tok o ++ ';' :: '\n' :: t := by
  simp [headerOrient, hg]

/-- Unfolding equation for `headerNormalize`. -/
theorem headerNormalize_eq (l : List Char) (o : Orientation) :
    headerNormalize l o =
      if matchHeaderSemi (headerOrient (trimJS l) o) then
        headerOrient (trimJS l) o
      else fixHeaderSemi (headerOrient (trimJS l) o) := rfl

/-- `headerNormalize` fixes any value that trimming, orientation fixing
and semicolon fixing all leave alone. -/
theorem headerNormalize_eq_self {v : List Char} {o : Orientation}
    (h1 : trimJS v = v) (h2 : headerOrient v o = v)
    (h3 : matchHeaderSemi v = true ∨ fixHeaderSemi v = v) :
    headerNormalize v o = v := by
  rw [headerNormalize_eq, h1, h2]
  rcases h3 with h | h
  · simp [h]
  · by_cases hm : matchHeaderSemi v = true
    · simp [hm]
    · simp [hm, h]

/-- `startsSemi` on a cons tests the head character. -/
theorem startsSemi_cons (c : Char) (Z : List Char) :
    startsSemi (c :: Z) = decide (c = ';') := rfl

/-- A source of the shape `graph <tok><caps>;<rest>` passes the
header-semicolon test. -/
theorem matchHeaderSemi_good (o : Orientation) (S Z : List Char)
    (hS : ∀ a ∈ S, isUpperAZ a = true) :
    matchHeaderSemi (gHdr ++ (tok o ++ S) ++ ';' :: Z) = true := by
  have hup : ∀ a ∈ tok o ++ S, isUpperAZ a = true := by
    intro a ha
    rcases List.mem_append.mp ha with h | h
    · exact tok_upper o a h
    · exact hS a h
  have hg : startsWithL gHdr (gHdr ++ (tok o ++ S) ++ ';' :: Z) = true :=
    startsWithL_self_append _ _
  have htw : takeW isUpperAZ ((gHdr ++ (tok o ++ S) ++ ';' :: Z).drop 6) =
      (tok o ++ S, ';' :: Z) := by
    rw [show (gHdr ++ (tok o ++ S) ++ ';' :: Z).drop 6 =
        (tok o ++ S) ++ ';' :: Z from List.drop_left gHdr _]
    rw [takeW_append_all _ _ _ hup, takeW_cons_neg (by decide)]
    simp
  have hne : tok o ++ S ≠ [] := by
    intro h0
    exact tok_ne_nil o (List.append_eq_nil.mp h0).1
  have hE : (tok o ++ S).isEmpty = false := by
    cases hEv : (tok o ++ S).isEmpty with
    | false => rfl
    | true => exact absurd (List.isEmpty_iff.mp hEv) hne
  unfold matchHeaderSemi
  rw [hg, htw]
  simp [hE, startsSemi_cons]

/-- Head of anything extending the `graph ` keyword. -/
theorem noLead_gHdr (X : List Char) : noLead (gHdr ++ X) := by
  intro c hc
  rw [List.head?_append_of_ne_nil _ (by decide)] at hc
  injection hc with h
  subst h
  rfl

/-- Stability: a source of the shape `graph <tok><caps>;<rest>` whose last
character is not whitespace is a fixed point of `headerNormalize`. -/
theorem headerNormalize_stable (o : Orientation) (S Z : List Char)
    (hS : ∀ a ∈ S, isUpperAZ a = true)
    (hZ : ∀ c, (';' :: Z).getLast? = some c → isSpaceJS c = false) :
    headerNormalize (gHdr ++ (tok o ++ S) ++ ';' :: Z) o =
      gHdr ++ (tok o ++ S) ++ ';' :: Z := by
  have hg : startsWithL gHdr (gHdr ++ (tok o ++ S) ++ ';' :: Z) = true :=
    startsWithL_self_append _ _
  have hT : startsWithL (gHdr ++ tok o)
      (gHdr ++ (tok o ++ S) ++ ';' :: Z) = true := by
    rw [show gHdr ++ (tok o ++ S) ++ ';' :: Z =
        (gHdr ++ tok o) ++ (S ++ ';' :: Z) by simp [List.append_assoc]]
    exact startsWithL_self_append _ _
  apply headerNormalize_eq_self
  · apply trim_fix
    · exact noLead_gHdr _
    · intro c hc
      rw [List.getLast?_append_of_ne_nil (gHdr ++ (tok o ++ S))
            (show (';' :: Z : List Char) ≠ [] by simp)] at hc
      exact hZ c hc
  · exact headerOrient_keep hg hT
  · exact Or.inl (matchHeaderSemi_good o S Z hS)

/-! ## Header-prefix preservation

Once the prepend branch installs `graph <o>;\n`, no match of any of the
nine substitution rules can start inside those ten characters, whatever
the rest of the string is: each lemma below holds by pure computation. -/

/-- Rule 1 never rewrites the installed header prefix. -/
theorem mArrowInsert_hdr (o : Orientation) (t : List Char) :
    subst mArrowInsert (headerFor o ++ t) =
      headerFor o ++ subst mArrowInsert t := by
  cases o <;> rfl

/-- Rule 2 never rewrites the installed header prefix. -/
theorem mSemiEOL_hdr (o : Orientation) (t : List Char) :
    subst mSemiEOL (headerFor o ++ t) = headerFor o ++ subst mSemiEOL t := by
  cases o <;> rfl

/-- Rule 3 never rewrites the installed header prefix. -/
theorem mDoublePipe_hdr (o : Orientation) (t : List Char) :
    subst mDoublePipe (headerFor o ++ t) =
      headerFor o ++ subst mDoublePipe t := by
  cases o <;> rfl

/-- Rule 4 never rewrites the installed header prefix. -/
theorem mConfirmPayPal_hdr (o : Orientation) (t : List Char) :
    subst mConfirmPayPal (headerFor o ++ t) =
      headerFor o ++ subst mConfirmPayPal t := by
  cases o <;> rfl

/-- Rule 5 never rewrites the installed header prefix. -/
theorem mSpaceBeforeArrow_hdr (o : Orientation) (t : List Char) :
    subst mSpaceBeforeArrow (headerFor o ++ t) =
      headerFor o ++ subst mSpaceBeforeArrow t := by
  cases o <;> rfl

/-- Rule 6 never rewrites the installed header prefix. -/
theorem mSpaceAfterArrow_hdr (o : Orientation) (t : List Char) :
    subst mSpaceAfterArrow (headerFor o ++ t) =
      headerFor o ++ subst mSpaceAfterArrow t := by
  cases o <;> rfl

/-- Rule 7 never rewrites the installed header prefix. -/
theorem mPipeSpacing_hdr (o : Orientation) (t : List Char) :
    subst mPipeSpacing (headerFor o ++ t) =
      headerFor o ++ subst mPipeSpacing t := by
  cases o <;> rfl

/-- Rule 8 never rewrites the installed header prefix. -/
theorem mSemiEOS_hdr (o : Orientation) (t : List Char) :
    subst mSemiEOS (headerFor o ++ t) = headerFor o ++ subst mSemiEOS t := by
  cases o <;> rfl

/-- Rule 9 never rewrites the installed header prefix. -/
theorem mSemiAfterArrow_hdr (o : Orientation) (t : List Char) :
    subst mSemiAfterArrow (headerFor o ++ t) =
      headerFor o ++ subst mSemiAfterArrow t := by
  cases o <;> rfl

/-- The whole nine-rule pass preserves the installed header prefix. -/
theorem applyRules_hdr (o : Orientation) (t : List Char) :
    applyRules (headerFor o ++ t) = headerFor o ++ applyRules t := by
  unfold applyRules
  rw [mArrowInsert_hdr, mSemiEOL_hdr, mDoublePipe_hdr, mConfirmPayPal_hdr,
    mSpaceBeforeArrow_hdr, mSpaceAfterArrow_hdr, mPipeSpacing_hdr,
    mSemiEOS_hdr, mSemiAfterArrow_hdr]

/-! ## Claim C1: idempotence of the repair pipeline -/

/-- C1, counterexample: the repair pipeline is not idempotent.  On
`"A --> B"` the first pass yields `"graph TD;\nA --> B;"`, and the ninth
substitution (terminator after an arrow segment) fires again on the second
pass, yielding `"graph TD;\nA --> B;;"`. -/
theorem repair_not_idempotent_cex :
    repair (repair "A --> B" .TD) .TD ≠ repair "A --> B" .TD := by
  decide

/-! ## Claim C2: the header invariant -/

/-- C2, counterexample: repairing `"graph x"` with orientation `TD`
returns it unchanged — the orientation-rewrite regex `^graph [A-Z]+`
requires a capital after `graph `, so a lowercase token defeats every
header rule, and the output contains no `TD` token anywhere, hence no
header declaring the requested orientation. -/
theorem repair_wrong_header_cex :
    repair "graph x" .TD = "graph x" ∧
    containsL (tok .TD) (repair "graph x" .TD).data = false := by
  decide

/-- C2, amended: whenever the trimmed source does not already start with
`graph ` (the prepend branch), the repaired output is exactly the header
`graph <o>;` and a newline followed by the rule-processed body, hence it
begins with a header declaring orientation `o`.  When the source does
start with `graph `, no such guarantee holds (see the counterexample). -/
theorem repair_prepends_header (s : String) (o : Orientation)
    (h : startsWithL gHdr (trimJS s.data) = false) :
    (repair s o).data = headerFor o ++ applyRules (trimJS s.data) := by
  have h1 : headerNormalize s.data o = headerFor o ++ trimJS s.data := by
    unfold headerNormalize headerOrient
    rw [h]
    cases o <;> rfl
  unfold repair repairL
  rw [h1, applyRules_hdr]

/-- C2, witness: the concrete headerless source `"A --> B"` satisfies the
hypothesis, and its repair starts with the installed `graph TD;` header. -/
theorem repair_prepends_header_witness :
    startsWithL gHdr (trimJS "A --> B".data) = false ∧
    (repair "A --> B" .TD).data =
      headerFor .TD ++ applyRules (trimJS "A --> B".data) :=
  ⟨by decide, repair_prepends_header _ _ (by decide)⟩

/-- C1, amended: the full pipeline is not idempotent (see the
counterexample: rules 7 and 9 append characters on every pass), but the
header-normalization stage is: on every input whose trimmed form is
nonempty and is not a bare `graph ` + capitals header (where the
semicolon rule appends a trailing newline that the next pass trims),
running header normalization twice equals running it once. -/
theorem headerNormalize_idem (l : List Char) (o : Orientation)
    (h1 : trimJS l ≠ [])
    (h2 : isBareGraphHeader (trimJS l) = false) :
    headerNormalize (headerNormalize l o) o = headerNormalize l o := by
  set t := trimJS l with ht
  have tLead : noLead t := by rw [ht]; exact trim_noLead l
  have tTrail : noTrail t := by rw [ht]; exact trim_noTrail l
  cases hg : startsWithL gHdr t with
  | false =>
    have hm : matchHeaderSemi (gHdr ++ tok o ++ ';' :: '\n' :: t) = true := by
      have hgood := matchHeaderSemi_good o [] ('\n' :: t) (by simp)
      simp only [List.append_nil] at hgood
      exact hgood
    have hpass : headerNormalize l o = gHdr ++ tok o ++ ';' :: '\n' :: t := by
      rw [headerNormalize_eq, ← ht, headerOrient_prepend hg, if_pos hm]
    rw [hpass]
    have hZ : ∀ c2, (';' :: '\n' :: t).getLast? = some c2 →
        isSpaceJS c2 = false := by
      intro c2 hc2
      apply tTrail
      rw [← List.getLast?_append_of_ne_nil ([';', '\n'] : List Char) h1]
      exact hc2
    have hst := headerNormalize_stable o [] ('\n' :: t) (by simp) hZ
    simp only [List.append_nil] at hst
    exact hst
  | true =>
    cases hT : startsWithL (gHdr ++ tok o) t with
    | true =>
      obtain ⟨r2, hr2⟩ := startsWithL_iff_ex hT
      set q := takeW isUpperAZ r2 with hqdef
      have hq12 : q.1 ++ q.2 = r2 := by rw [hqdef]; exact takeW_decomp _ _
      have hqU : ∀ a ∈ q.1, isUpperAZ a = true := by
        rw [hqdef]; exact takeW_fst_all _ _
      have htwA : takeW isUpperAZ (t.drop 6) = (tok o ++ q.1, q.2) := by
        have hdropA : t.drop 6 = tok o ++ r2 := by
          rw [hr2, List.append_assoc]
          exact List.drop_left gHdr _
        rw [hdropA, takeW_append_all _ _ _ (tok_upper o), ← hqdef]
      cases hq2v : q.2 with
      | nil =>
        have hb : isBareGraphHeader t = true := by
          unfold isBareGraphHeader
          rw [hg, htwA, hq2v]
          simp [isEmpty_tok_append]
        rw [hb] at h2
        exact Bool.noConfusion h2
      | cons c cs =>
        have hcU : isUpperAZ c = false := by
          apply takeW_snd_head isUpperAZ r2
          rw [← hqdef]
          exact hq2v
        have ht2 : t = (gHdr ++ tok o) ++ (q.1 ++ c :: cs) := by
          rw [hr2, ← hq12, hq2v]
        have hmt : matchHeaderSemi t = decide (c = ';') := by
          unfold matchHeaderSemi
          rw [hg, htwA, hq2v]
          simp [isEmpty_tok_append, startsSemi_cons]
        by_cases hsc : c = ';'
        · subst hsc
          have hm : matchHeaderSemi t = true := by rw [hmt]; rfl
          have hpass : headerNormalize l o = t := by
            rw [headerNormalize_eq, ← ht, headerOrient_keep hg hT, if_pos hm]
          rw [hpass]
          have hZ : ∀ c2, (';' :: cs).getLast? = some c2 →
              isSpaceJS c2 = false := by
            intro c2 hc2
            apply tTrail
            rw [ht2,
              List.getLast?_append_of_ne_nil (gHdr ++ tok o)
                (show q.1 ++ ';' :: cs ≠ [] by simp),
              List.getLast?_append_of_ne_nil q.1
                (show (';' :: cs : List Char) ≠ [] by simp)]
            exact hc2
          rw [show t = gHdr ++ (tok o ++ q.1) ++ ';' :: cs by
            rw [ht2]; simp [List.append_assoc]]
          exact headerNormalize_stable o q.1 cs hqU hZ
        · cases hws : isSpaceJS c with
          | true =>
            have hcs : cs ≠ [] := by
              intro h0
              subst h0
              have hlast : t.getLast? = some c := by
                rw [ht2,
                  List.getLast?_append_of_ne_nil (gHdr ++ tok o)
                    (show q.1 ++ [c] ≠ [] by simp),
                  List.getLast?_append_of_ne_nil q.1
                    (show ([c] : List Char) ≠ [] by simp)]
                rfl
              have hcon := tTrail c hlast
              rw [hws] at hcon
              exact Bool.noConfusion hcon
            have hmf : matchHeaderSemi t = false := by
              rw [hmt]; simp [hsc]
            have hfix : fixHeaderSemi t =
                gHdr ++ (tok o ++ q.1) ++ ';' :: '\n' :: cs := by
              unfold fixHeaderSemi
              rw [hg, htwA, hq2v]
              simp [isEmpty_tok_append, hws]
            have hpass : headerNormalize l o =
                gHdr ++ (tok o ++ q.1) ++ ';' :: '\n' :: cs := by
              rw [headerNormalize_eq, ← ht, headerOrient_keep hg hT,
                if_neg (by simp [hmf]), hfix]
            rw [hpass]
            apply headerNormalize_stable o q.1 ('\n' :: cs) hqU
            intro c2 hc2
            have hc2' : cs.getLast? = some c2 := by
              rw [← List.getLast?_append_of_ne_nil
                ([';', '\n'] : List Char) hcs]
              exact hc2
            apply tTrail
            rw [ht2,
              List.getLast?_append_of_ne_nil (gHdr ++ tok o)
                (show q.1 ++ c :: cs ≠ [] by simp),
              List.getLast?_append_of_ne_nil q.1
                (show c :: cs ≠ [] by simp),
              show (c :: cs).getLast? = cs.getLast? from
                List.getLast?_append_of_ne_nil [c] hcs]
            exact hc2'
          | false =>
            have hmf : matchHeaderSemi t = false := by
              rw [hmt]; simp [hsc]
            have hfix : fixHeaderSemi t = t := by
              unfold fixHeaderSemi
              rw [hg, htwA, hq2v]
              simp [isEmpty_tok_append, hws]
            have hpass : headerNormalize l o = t := by
              rw [headerNormalize_eq, ← ht, headerOrient_keep hg hT,
                if_neg (by simp [hmf]), hfix]
            rw [hpass]
            exact headerNormalize_eq_self (trim_fix tLead tTrail)
              (headerOrient_keep hg hT) (Or.inr hfix)
    | false =>
      obtain ⟨r, hr⟩ := startsWithL_iff_ex hg
      set p := takeW isUpperAZ r with hpdef
      have hp12 : p.1 ++ p.2 = r := by rw [hpdef]; exact takeW_decomp _ _
      have htwB : takeW isUpperAZ (t.drop 6) = p := by
        have hdropB : t.drop 6 = r := by
          rw [hr]
          exact List.drop_left gHdr _
        rw [hdropB, hpdef]
      cases hp1 : p.1 with
      | nil =>
        have hrep : replaceHeadUpper t o = t := by
          unfold replaceHeadUpper
          rw [hg, htwB]
          simp [hp1]
        have hmf : matchHeaderSemi t = false := by
          unfold matchHeaderSemi
          rw [hg, htwB]
          simp [hp1]
        have hfix : fixHeaderSemi t = t := by
          unfold fixHeaderSemi
          rw [hg, htwB]
          simp [hp1]
        have hpass : headerNormalize l o = t := by
          rw [headerNormalize_eq, ← ht, headerOrient_replace hg hT, hrep,
            if_neg (by simp [hmf]), hfix]
        rw [hpass]
        apply headerNormalize_eq_self (trim_fix tLead tTrail)
        · rw [headerOrient_replace hg hT, hrep]
        · exact Or.inr hfix
      | cons a as =>
        have hs2ne : p.2 ≠ [] := by
          intro h0
          have hb : isBareGraphHeader t = true := by
            unfold isBareGraphHeader
            rw [hg, htwB]
            simp [hp1, h0]
          rw [hb] at h2
          exact Bool.noConfusion h2
        obtain ⟨c, cs, hq2⟩ : ∃ c cs, p.2 = c :: cs := by
          cases hpv : p.2 with
          | nil => exact absurd hpv hs2ne
          | cons x xs => exact ⟨x, xs, rfl⟩
        have hcU : isUpperAZ c = false := by
          apply takeW_snd_head isUpperAZ r
          rw [← hpdef]
          exact hq2
        have ht3 : t = gHdr ++ (p.1 ++ c :: cs) := by
          rw [hr, ← hp12, hq2]
        have hrep : replaceHeadUpper t o = gHdr ++ tok o ++ c :: cs := by
          unfold replaceHeadUpper
          rw [hg, htwB]
          simp [hp1, hq2]
        have hgU : startsWithL gHdr (gHdr ++ tok o ++ c :: cs) = true := by
          rw [show gHdr ++ tok o ++ c :: cs =
            gHdr ++ (tok o ++ c :: cs) by simp]
          exact startsWithL_self_append _ _
        have hTU : startsWithL (gHdr ++ tok o)
            (gHdr ++ tok o ++ c :: cs) = true :=
          startsWithL_self_append _ _
        have htwU : takeW isUpperAZ ((gHdr ++ tok o ++ c :: cs).drop 6) =
            (tok o, c :: cs) := by
          rw [show (gHdr ++ tok o ++ c :: cs).drop 6 = tok o ++ c :: cs by
              rw [List.append_assoc]; exact List.drop_left gHdr _,
            takeW_append_all _ _ _ (tok_upper o), takeW_cons_neg hcU]
          simp
        have hmtU : matchHeaderSemi (gHdr ++ tok o ++ c :: cs) =
            decide (c = ';') := by
          unfold matchHeaderSemi
          rw [hgU, htwU]
          simp [tok_isEmpty, startsSemi_cons]
        by_cases hsc : c = ';'
        · subst hsc
          have hm : matchHeaderSemi (gHdr ++ tok o ++ ';' :: cs) = true := by
            rw [hmtU]; rfl
          have hpass : headerNormalize l o = gHdr ++ tok o ++ ';' :: cs := by
            rw [headerNormalize_eq, ← ht, headerOrient_replace hg hT, hrep,
              if_pos hm]
          rw [hpass]
          have hZ : ∀ c2, (';' :: cs).getLast? = some c2 →
              isSpaceJS c2 = false := by
            intro c2 hc2
            apply tTrail
            rw [ht3,
              List.getLast?_append_of_ne_nil gHdr
                (show p.1 ++ ';' :: cs ≠ [] by simp),
              List.getLast?_append_of_ne_nil p.1
                (show (';' :: cs : List Char) ≠ [] by simp)]
            exact hc2
          have hst := headerNormalize_stable o [] cs (by simp) hZ
          simp only [List.append_nil] at hst
          exact hst
        · cases hws : isSpaceJS c with
          | true =>
            have hcs : cs ≠ [] := by
              intro h0
              subst h0
              have hlast : t.getLast? = some c := by
                rw [ht3,
                  List.getLast?_append_of_ne_nil gHdr
                    (show p.1 ++ [c] ≠ [] by simp),
                  List.getLast?_append_of_ne_nil p.1
                    (show ([c] : List Char) ≠ [] by simp)]
                rfl
              have hcon := tTrail c hlast
              rw [hws] at hcon
              exact Bool.noConfusion hcon
            have hmfU : matchHeaderSemi (gHdr ++ tok o ++ c :: cs) =
                false := by
              rw [hmtU]; simp [hsc]
            have hfixU : fixHeaderSemi (gHdr ++ tok o ++ c :: cs) =
                gHdr ++ tok o ++ ';' :: '\n' :: cs := by
              unfold fixHeaderSemi
              rw [hgU, htwU]
              simp [tok_isEmpty, hws]
            have hpass : headerNormalize l o =
                gHdr ++ tok o ++ ';' :: '\n' :: cs := by
              rw [headerNormalize_eq, ← ht, headerOrient_replace hg hT, hrep,
                if_neg (by rw [hmfU]; simp), hfixU]
            rw [hpass]
            have hZ : ∀ c2, (';' :: '\n' :: cs).getLast? = some c2 →
                isSpaceJS c2 = false := by
              intro c2 hc2
              have hc2' : cs.getLast? = some c2 := by
                rw [← List.getLast?_append_of_ne_nil
                  ([';', '\n'] : List Char) hcs]
                exact hc2
              apply tTrail
              rw [ht3,
                List.getLast?_append_of_ne_nil gHdr
                  (show p.1 ++ c :: cs ≠ [] by simp),
                List.getLast?_append_of_ne_nil p.1
                  (show c :: cs ≠ [] by simp),
                show (c :: cs).getLast? = cs.getLast? from
                  List.getLast?_append_of_ne_nil [c] hcs]
              exact hc2'
            have hst := headerNormalize_stable o [] ('\n' :: cs)
              (by simp) hZ
            simp only [List.append_nil] at hst
            exact hst
          | false =>
            have hmfU : matchHeaderSemi (gHdr ++ tok o ++ c :: cs) =
                false := by
              rw [hmtU]; simp [hsc]
            have hfixU : fixHeaderSemi (gHdr ++ tok o ++ c :: cs) =
                gHdr ++ tok o ++ c :: cs := by
              unfold fixHeaderSemi
              rw [hgU, htwU]
              simp [tok_isEmpty, hws]
            have hpass : headerNormalize l o = gHdr ++ tok o ++ c :: cs := by
              rw [headerNormalize_eq, ← ht, headerOrient_replace hg hT, hrep,
                if_neg (by rw [hmfU]; simp), hfixU]
            rw [hpass]
            apply headerNormalize_eq_self
            · apply trim_fix
              · rw [show gHdr ++ tok o ++ c :: cs =
                  gHdr ++ (tok o ++ c :: cs) by simp]
                exact noLead_gHdr _
              · intro c2 hc2
                rw [List.getLast?_append_of_ne_nil (gHdr ++ tok o)
                  (show c :: cs ≠ [] by simp)] at hc2
                apply tTrail
                rw [ht3,
                  List.getLast?_append_of_ne_nil gHdr
                    (show p.1 ++ c :: cs ≠ [] by simp),
                  List.getLast?_append_of_ne_nil p.1
                    (show c :: cs ≠ [] by simp)]
                exact hc2
            · exact headerOrient_keep hgU hTU
            · exact Or.inr hfixU

/-- C1, witness for the amended theorem: the concrete source `"A --> B"`
satisfies both hypotheses, and header normalization is idempotent on it. -/
theorem headerNormalize_idem_witness :
    trimJS "A --> B".data ≠ [] ∧
    isBareGraphHeader (trimJS "A --> B".data) = false ∧
    headerNormalize (headerNormalize "A --> B".data .TD) .TD =
      headerNormalize "A --> B".data .TD :=
  ⟨by decide, by decide, headerNormalize_idem _ _ (by decide) (by decide)⟩

/-! ## Claim C3: scenario 1, connector insertion -/

/-- C3, counterexample: on the spec's own input `"Start[A] Validate[B]"`
the pipeline inserts no connector at all — the arrow-insertion pattern
`\w+\["[^"]*"\]` requires quoted labels, and `[A]` has none.  The output
is the input with a header prepended, and contains no `-->` anywhere. -/
theorem scenario1_no_connector_cex :
    repair "Start[A] Validate[B]" .TD = "graph TD;\nStart[A] Validate[B]" ∧
    containsL "-->".data (repair "Start[A] Validate[B]" .TD).data = false := by
  decide

/-- C3, amended: with quoted labels, `"Start[\"A\"] Validate[\"B\"]"`, the
pipeline does insert the directed connector ` --> ` between the two node
declarations (the trailing `;;` is the rule-8/rule-9 terminator overlap). -/
theorem scenario1_quoted_connector :
    repair "Start[\"A\"] Validate[\"B\"]" .TD =
      "graph TD;\nStart[\"A\"] --> Validate[\"B\"];;" ∧
    repair "Start[\"A\"] Validate[\"B\"]" .LR =
      "graph LR;\nStart[\"A\"] --> Validate[\"B\"];;" := by
  decide

/-! ## Claim C4: case sensitivity of classification -/

/-- C4, counterexample: classification is case-sensitive, not
case-insensitive — the lowercase variant `"checkout"` is classified
differently from `"Checkout"`. -/
theorem classify_case_sensitive_cex :
    classify "checkout" ≠ classify "Checkout" := by
  decide

/-- C4, amended: classification is an exact, case-sensitive substring
search.  The exact phrases `"Checkout"` and `"Shopping Cart"` are assigned
the checkout category, while their case variants `"checkout"` and
`"SHOPPING CART"` are unclassified. -/
theorem classify_case_sensitive :
    classify "Checkout" = .checkout ∧
    classify "Shopping Cart" = .checkout ∧
    classify "checkout" = .unclassified ∧
    classify "SHOPPING CART" = .unclassified := by
  decide

/-! ## Claim C5: scenario 2, checkout template preemption -/

/-- The buy-order and checkout templates are distinct diagram sources:
they differ at character 19 (`'R'` in `Receive` versus `'U'` in `User`). -/
theorem buyOrder_ne_checkout (o : Orientation) :
    buyOrderTemplate o ≠ checkoutTemplate o := by
  intro h
  have h19 := congrArg (fun s => s.data.get? 19) h
  cases o <;> exact absurd h19 (by decide)

/-- C5, counterexample: an input containing `"Shopping Cart"`, `"Payment"`
and the broken adjacency `"ConfirmPayPal ReviewOrder"` can still satisfy
the buy-order test (here via `"Client"` and `"Service"`), and the
buy-order branch of `retryRender` runs first: the buy-order template is
rendered, not the checkout template, and the input classifies as
buy-order, not checkout. -/
theorem retry_checkout_preempted_cex :
    retryRenderSource
        { input := "", diagram := "",
          rawDiagram :=
            "Shopping Cart Payment Client Service ConfirmPayPal ReviewOrder",
          error := "", orientation := .TD } =
      .template (buyOrderTemplate .TD) ∧
    retryRenderSource
        { input := "", diagram := "",
          rawDiagram :=
            "Shopping Cart Payment Client Service ConfirmPayPal ReviewOrder",
          error := "", orientation := .TD } ≠
      .template (checkoutTemplate .TD) ∧
    classify "Shopping Cart Payment Client Service ConfirmPayPal ReviewOrder" =
      .buyorder := by
  have h1 : retryRenderSource
      { input := "", diagram := "",
        rawDiagram :=
          "Shopping Cart Payment Client Service ConfirmPayPal ReviewOrder",
        error := "", orientation := .TD } =
      .template (buyOrderTemplate .TD) := by
    simp only [retryRenderSource]
    rw [if_neg (by decide), if_pos (by decide)]
  refine ⟨h1, ?_, by decide⟩
  rw [h1]
  intro h
  injection h with h
  exact buyOrder_ne_checkout .TD h

/-- C5, amended: for every state whose raw source contains
`"Shopping Cart"`, `"Payment"` and `"ConfirmPayPal ReviewOrder"` and does
*not* satisfy the buy-order test, `retryRender` selects the checkout
template directly instead of running the generic repair pipeline. -/
theorem retry_checkout_template (st : SessionState)
    (h1 : includesS st.rawDiagram "Shopping Cart" = true)
    (h2 : includesS st.rawDiagram "Payment" = true)
    (h3 : includesS st.rawDiagram "ConfirmPayPal ReviewOrder" = true)
    (h4 : isBuyOrderDiagram st.rawDiagram = false) :
    retryRenderSource st = .template (checkoutTemplate st.orientation) := by
  have hne : st.rawDiagram ≠ "" := by
    intro he
    rw [he] at h1
    exact absurd h1 (by decide)
  simp [retryRenderSource, isCheckoutDiagram, h1, h3, h4, hne]

/-- C5, witness: a concrete checkout-flavored source with the broken
adjacency and no buy-order vocabulary takes the checkout-template branch. -/
theorem retry_checkout_template_witness :
    includesS "Shopping Cart Payment ConfirmPayPal ReviewOrder"
        "Shopping Cart" = true ∧
    includesS "Shopping Cart Payment ConfirmPayPal ReviewOrder"
        "Payment" = true ∧
    includesS "Shopping Cart Payment ConfirmPayPal ReviewOrder"
        "ConfirmPayPal ReviewOrder" = true ∧
    isBuyOrderDiagram "Shopping Cart Payment ConfirmPayPal ReviewOrder" =
      false ∧
    retryRenderSource
        { input := "", diagram := "",
          rawDiagram := "Shopping Cart Payment ConfirmPayPal ReviewOrder",
          error := "", orientation := .LR } =
      .template (checkoutTemplate .LR) :=
  ⟨by decide, by decide, by decide, by decide,
    retry_checkout_template _ (by decide) (by decide) (by decide) (by decide)⟩

/-! ## Claim C6: unknown template type is a no-op -/

/-- C6: invoking `useTemplate` with any type outside
`{checkout, buyorder, registration}` produces no template source and
leaves the whole session state (raw source, error, everything) unchanged:
the session stays in its failed state. -/
theorem useTemplate_unknown_noop (ty : String) (st : SessionState)
    (h1 : ty ≠ "checkout") (h2 : ty ≠ "buyorder")
    (h3 : ty ≠ "registration") :
    useTemplate ty st = (st, none) := by
  simp [useTemplate, templateCode, h1, h2, h3]

/-- C6, witness: the unclassified type yields no template and no state
change on a concrete failed session. -/
theorem useTemplate_unknown_noop_witness :
    useTemplate "unclassified"
        { input := "p", diagram := "d", rawDiagram := "gibberish",
          error := "Diagram syntax error: x", orientation := .TD } =
      ({ input := "p", diagram := "d", rawDiagram := "gibberish",
         error := "Diagram syntax error: x", orientation := .TD }, none) :=
  useTemplate_unknown_noop _ _ (by decide) (by decide) (by decide)

/-! ## Claim C7: classification is a pure function of the source text -/

/-- C7: classification during retry depends on nothing but the stored raw
source text: two session states agreeing on `rawDiagram` — whatever their
error message, orientation, prompt or rendered diagram — classify
identically, and repeated classification of the same state is identical. -/
theorem classify_pure (st₁ st₂ : SessionState)
    (h : st₁.rawDiagram = st₂.rawDiagram) :
    classifyState st₁ = classifyState st₂ := by
  simp [classifyState, h]

/-- C7, witness: the same raw source classifies identically across two
states that differ in error, orientation, prompt and diagram. -/
theorem classify_pure_witness :
    classifyState
        { input := "a", diagram := "x", rawDiagram := "Checkout",
          error := "boom", orientation := .TD } =
      classifyState
        { input := "b", diagram := "y", rawDiagram := "Checkout",
          error := "", orientation := .LR } :=
  classify_pure _ _ rfl

/-! ## Claim C8: retry never stores its repaired output -/

/-- C8: `retryRender` stores nothing: whatever branch runs and whatever
the renderer answers, the stored raw source, the stored generated source
and the orientation are unchanged, so any later retry recomputes its
repair from the same original raw text. -/
theorem retryRender_preserves_rawDiagram (st : SessionState)
    (ok : String → Bool) (errMsg : String) :
    (retryRender st ok errMsg).1.rawDiagram = st.rawDiagram ∧
    (retryRender st ok errMsg).1.diagram = st.diagram ∧
    (retryRender st ok errMsg).1.orientation = st.orientation := by
  unfold retryRender applyRender
  cases retryRenderSource st <;> simp <;> split <;> simp

/-! ## Claim C9: the retry-path templates equal the useTemplate templates -/

/-- C9: for each orientation, the checkout and buy-order template literals
embedded in the retry path agree character-for-character with the ones
`useTemplate` builds for `"checkout"` and `"buyorder"`. -/
theorem templates_agree (o : Orientation) :
    checkoutTemplate o = templateCode "checkout" o ∧
    buyOrderTemplate o = templateCode "buyorder" o := by
  cases o <;> exact ⟨rfl, rfl⟩

/-! ## Claim C10: retry on an empty stored source is a no-op -/

/-- C10: when the stored raw source is empty, `retryRender` returns at the
guard: nothing is sent to the renderer, nothing is classified, and the
session state is returned unchanged. -/
theorem retryRender_empty_noop (st : SessionState) (ok : String → Bool)
    (errMsg : String) (h : st.rawDiagram = "") :
    retryRender st ok errMsg = (st, .noop) := by
  simp [retryRender, retryRenderSource, h]

/-- C10, witness: a concrete session with an empty raw source is left
untouched by retry. -/
theorem retryRender_empty_noop_witness :
    retryRender
        { input := "p", diagram := "", rawDiagram := "",
          error := "err", orientation := .TD }
        (fun _ => false) "msg" =
      ({ input := "p", diagram := "", rawDiagram := "",
         error := "err", orientation := .TD }, .noop) :=
  retryRender_empty_noop _ _ _ rfl

end ArchWize
